import Mathlib

/-!
Verification of the message-persistence store, the geocoding/map helper and
the chat turn handler of this repository (`chat_app/streamlit_chat_app.py`,
`create_map_func.py`, `app.py`).

Modelling conventions (shallow embedding):
* Python values flowing through `json.loads` / `json.dumps` and the message
  dataclasses are modelled by the inductive `PyObj`.  A Python `datetime`
  object is `PyObj.pyDatetime`; `json.dumps` refuses it, `json.loads` never
  produces it.
* The backing JSONL file is modelled at the granularity the Python code
  observes: a list of lines, each line being blank/whitespace-only, invalid
  JSON, or a parsed JSON value (`FileLine`).  `json.dumps` never emits a raw
  newline, so one `add_messages` call contributes exactly one line; the
  stdlib guarantee that `json.loads` inverts `json.dumps` is embedded by
  keeping lines at the parsed level.
* `datetime.isoformat` / `datetime.fromisoformat` (Python stdlib, external
  to the repository) are modelled by carrying the ISO rendering as the
  datetime's payload, with a simple character-level validity test standing
  in for `fromisoformat`'s parser.
* The six `pydantic_ai` message classes (external collaborators) are
  modelled per the spec's data model: a message is a plain record with
  `role`, `content` and `timestamp` attributes, built by an unvalidating
  dataclass constructor that accepts exactly those keyword arguments,
  requires `content`, and defaults `role`/`timestamp`.
* Exceptions are `Option`/failure values; console logging is counted.
-/

namespace ChatApp

/-- Model of a Python `datetime` instant, carried as its ISO-8601 rendering
(the only aspect of a datetime this code observes). -/
structure PyDateTime where
  iso : String
deriving DecidableEq, Repr

/-- Character-level stand-in for the grammar `datetime.fromisoformat`
accepts: nonempty, digits and ISO punctuation only. -/
def isoValid (s : String) : Bool :=
  !s.isEmpty && s.data.all fun c =>
    c.isDigit || c == '-' || c == ':' || c == 'T' || c == '.' || c == '+'

/-- Model of `datetime.isoformat()`. -/
def PyDateTime.isoformat (t : PyDateTime) : String := t.iso

/-- Model of `datetime.fromisoformat(s)`: `none` models the `ValueError`
raised on a string the parser rejects. -/
def datetime_fromisoformat (s : String) : Option PyDateTime :=
  if isoValid s then some ⟨s⟩ else none

/-- Python values reachable in the store pipeline: the JSON universe plus
`datetime` objects (which appear in dicts after timestamp conversion). -/
inductive PyObj where
  | pyNone : PyObj
  | pyBool : Bool → PyObj
  | pyInt : Int → PyObj
  | pyStr : String → PyObj
  | pyDatetime : PyDateTime → PyObj
  | pyList : List PyObj → PyObj
  | pyDict : List (String × PyObj) → PyObj

/-- Lookup in a Python dict modelled as an association list; the LAST
binding of a key wins, matching how `json.loads` collapses duplicate keys. -/
def dictGet (d : List (String × PyObj)) (k : String) : Option PyObj :=
  match d with
  | [] => none
  | (k₁, v) :: rest =>
    match dictGet rest k with
    | some w => some w
    | none => if k₁ = k then some v else none

/-- Model of `d[k] = v` on a Python dict: overwrite the binding in place if
the key is present, else append it. -/
def dictSet (d : List (String × PyObj)) (k : String) (v : PyObj) :
    List (String × PyObj) :=
  if (dictGet d k).isSome then
    d.map fun kv => if kv.1 = k then (k, v) else kv
  else d ++ [(k, v)]

mutual
/-- Whether `json.dumps` accepts the value (a `datetime` anywhere makes it
raise `TypeError`). -/
def serializable : PyObj → Bool
  | .pyNone => true
  | .pyBool _ => true
  | .pyInt _ => true
  | .pyStr _ => true
  | .pyDatetime _ => false
  | .pyList xs => serializableList xs
  | .pyDict fs => serializableDict fs

/-- `serializable` over the elements of a list. -/
def serializableList : List PyObj → Bool
  | [] => true
  | x :: xs => serializable x && serializableList xs

/-- `serializable` over the values of a dict. -/
def serializableDict : List (String × PyObj) → Bool
  | [] => true
  | (_, v) :: fs => serializable v && serializableDict fs
end

/-- A constructed message object: the attributes the spec's data model gives
a Message and the only ones this store reads (`role`, `content`,
`timestamp`).  A plain dataclass stores whatever it was handed, so the
fields are arbitrary `PyObj`s. -/
structure Msg where
  role : PyObj
  content : PyObj
  timestamp : PyObj

/-- `UserPrompt(content=...)` as constructed by the UI: role literal
defaults to `"user"`, timestamp defaults to `datetime.now()`. -/
def UserPrompt (content : String) (now : PyDateTime) : Msg :=
  ⟨.pyStr "user", .pyStr content, .pyDatetime now⟩

/-- `ModelTextResponse(content=..., timestamp=...)` as constructed by the
UI: role literal is `"model-text-response"`. -/
def ModelTextResponse (content : String) (timestamp : PyDateTime) : Msg :=
  ⟨.pyStr "model-text-response", .pyStr content, .pyDatetime timestamp⟩

/-- The keys of the `role_to_class` dict in
`MessageDatabase._create_message_by_role`. -/
def role_to_class : List String :=
  ["user", "model-text-response", "system", "tool-return", "retry",
   "model-structured-response"]

/-- Keyword arguments the modelled message dataclasses accept. -/
def msgFieldNames : List String := ["content", "role", "timestamp"]

/-- `message_class(**msg_data)` for the modelled dataclasses: fails
(`TypeError`) on an unexpected keyword or a missing `content`;
`role` defaults to the class's role literal and `timestamp` to
`datetime.now()` when absent.  No validation of the stored values. -/
def constructMessage (classRole : String) (now : PyDateTime)
    (d : List (String × PyObj)) : Option Msg :=
  if d.all (fun kv => msgFieldNames.contains kv.1) then
    match dictGet d "content" with
    | some c =>
      some { role := (dictGet d "role").getD (.pyStr classRole)
             content := c
             timestamp := (dictGet d "timestamp").getD (.pyDatetime now) }
    | none => none
  else none

/-- `MessageDatabase._create_message_by_role`: look the `role` value up in
`role_to_class` and construct that class; `none` models the `ValueError`
on an unknown (or non-string, or absent) role, or a constructor failure. -/
def create_message_by_role (now : PyDateTime) (d : List (String × PyObj)) :
    Option Msg :=
  match dictGet d "role" with
  | some (.pyStr r) =>
    if role_to_class.contains r then constructMessage r now d else none
  | _ => none

/-- One iteration of the loop in `MessageDatabase._parse_messages`: `none`
models any exception caught by its per-message `try` (non-dict element,
`fromisoformat` failure, unknown role, constructor failure). -/
def parseOneMessage (now : PyDateTime) (x : PyObj) : Option Msg :=
  match x with
  | .pyDict d =>
    match dictGet d "timestamp" with
    | some (.pyStr s) =>
      match datetime_fromisoformat s with
      | some t => create_message_by_role now (dictSet d "timestamp" (.pyDatetime t))
      | none => none
    | _ => create_message_by_role now d
  | _ => none

/-- `MessageDatabase._parse_messages`: yields the messages that parse, in
order, and counts the `"Error parsing message"` log lines printed for the
elements that are skipped. -/
def parse_messages (now : PyDateTime) : List PyObj → List Msg × Nat
  | [] => ([], 0)
  | x :: xs =>
    match parseOneMessage now x with
    | some m => (m :: (parse_messages now xs).1, (parse_messages now xs).2)
    | none => ((parse_messages now xs).1, (parse_messages now xs).2 + 1)

/-- One line of the backing JSONL file, at the granularity `get_messages`
discriminates: blank/whitespace-only (`line.strip()` falsy), invalid JSON
(`json.loads` raises), or the parsed JSON value. -/
inductive FileLine where
  | blank : FileLine
  | invalid : FileLine
  | json : PyObj → FileLine

/-- What one pass of `MessageDatabase.get_messages` produced: the yielded
messages plus the two kinds of console log lines
(`"Error parsing line"` / `"Error parsing message"`). -/
structure LoadResult where
  messages : List Msg
  lineErrors : Nat
  messageErrors : Nat

/-- The loop body of `MessageDatabase.get_messages` for one line: blank
lines are skipped silently; an unparseable line logs one line error; a
parsed value is handed to `_parse_messages` only when it is a JSON array,
and is otherwise dropped silently. -/
def processLine (now : PyDateTime) : FileLine → LoadResult
  | .blank => ⟨[], 0, 0⟩
  | .invalid => ⟨[], 1, 0⟩
  | .json v =>
    match v with
    | .pyList elems =>
      let r := parse_messages now elems
      ⟨r.1, 0, r.2⟩
    | _ => ⟨[], 0, 0⟩

/-- Sequential read of the whole file by `get_messages`. -/
def loadLines (now : PyDateTime) : List FileLine → LoadResult
  | [] => ⟨[], 0, 0⟩
  | l :: ls =>
    let r := processLine now l
    let rest := loadLines now ls
    ⟨r.messages ++ rest.messages, r.lineErrors + rest.lineErrors,
     r.messageErrors + rest.messageErrors⟩

/-- `MessageDatabase`, with the backing `Path` replaced by the file's
observable state: `none` when the file does not exist on disk, otherwise
its lines. -/
structure MessageDatabase where
  file : Option (List FileLine)

/-- `MessageDatabase._serialize_message`.  The `pydantic_ai` message
dataclasses have no `model_dump`, so the fallback dict
`{content, role, timestamp.isoformat()}` is built; `none` models the
`AttributeError` from `.isoformat()` when the stored timestamp is not a
datetime. -/
def serialize_message (msg : Msg) : Option PyObj :=
  match msg.timestamp with
  | .pyDatetime t =>
    some (.pyDict [("content", msg.content), ("role", msg.role),
                   ("timestamp", .pyStr t.isoformat)])
  | _ => none

/-- `MessageDatabase.add_messages`: serialize every message, `json.dumps`
the array, and append the resulting single line.  `open("a")` creates a
missing file, so an absent file behaves as empty; `none` models an
uncaught serialization exception (nothing written). -/
def MessageDatabase.add_messages (db : MessageDatabase) (messages : List Msg) :
    Option MessageDatabase :=
  (messages.mapM serialize_message).bind fun messages_data =>
    if serializable (.pyList messages_data) then
      some ⟨some ((db.file.getD []) ++ [FileLine.json (.pyList messages_data)])⟩
    else none

/-- `MessageDatabase.get_messages`: an absent file yields nothing (the
`self.file.exists()` guard); otherwise every line is processed in file
order.  `now` supplies `datetime.now()` for defaulted timestamps. -/
def MessageDatabase.get_messages (db : MessageDatabase) (now : PyDateTime) :
    LoadResult :=
  match db.file with
  | none => ⟨[], 0, 0⟩
  | some lines => loadLines now lines

/-- `ChatUI._initialize_session` on a fresh session: start from an empty
message list and extend it with `get_messages`. -/
def initialize_session (db : MessageDatabase) (now : PyDateTime) : List Msg :=
  [] ++ (db.get_messages now).messages

/-- `ChatUI.handle_user_input`.  `chat_input` is the widget's return value
(`none` or the typed text, the empty string being falsy); `full_response`
is the text the finished stream returned; `now`/`now2` are the two
`datetime.now()` instants.  Returns the session list and the database
state (`none` only if persisting raised). -/
def handle_user_input (db : MessageDatabase) (session : List Msg)
    (chat_input : Option String) (full_response : String)
    (now now2 : PyDateTime) : List Msg × Option MessageDatabase :=
  match chat_input with
  | none => (session, some db)
  | some prompt =>
    if prompt.isEmpty then (session, some db)
    else
      let user_message := UserPrompt prompt now
      let session₁ := session ++ [user_message]
      if full_response.isEmpty then (session₁, some db)
      else
        let ai_message := ModelTextResponse full_response now2
        (session₁ ++ [ai_message],
         db.add_messages [user_message, ai_message])

/-- A well-formed turn for the round-trip property: a known role literal, a
genuine datetime timestamp whose ISO rendering reparses, and
JSON-serializable content. -/
def wellFormedMsg (m : Msg) : Bool :=
  (match m.role with
   | .pyStr r => role_to_class.contains r
   | _ => false) &&
  (match m.timestamp with
   | .pyDatetime t => isoValid t.iso
   | _ => false) &&
  serializable m.content

/-- Several `add_messages` calls in sequence, one per turn. -/
def add_all (db : MessageDatabase) (turns : List (List Msg)) :
    Option MessageDatabase :=
  turns.foldlM MessageDatabase.add_messages db

/-- Whether a persisted dict carries a role that `role_to_class` knows:
the `role` value must be a string and one of the six mapped keys. -/
def dictRoleKnown (d : List (String × PyObj)) : Bool :=
  match dictGet d "role" with
  | some (.pyStr r) => role_to_class.contains r
  | _ => false

/-- A concrete `datetime.now()` instant for example scenarios. -/
def exNow : PyDateTime := ⟨"2024-01-01T00:00:00"⟩

/-- The user turn of the spec's example scenario. -/
def exUser : Msg := UserPrompt "Hi" exNow

/-- The assistant turn of the spec's example scenario. -/
def exModel : Msg := ModelTextResponse "Hello!" exNow

/-- The file line `add_messages` writes for the single-message array
`[exUser]`. -/
def exLine : FileLine :=
  .json (.pyList [.pyDict [("content", .pyStr "Hi"), ("role", .pyStr "user"),
                           ("timestamp", .pyStr "2024-01-01T00:00:00")]])

/-- The database state after appending `[exUser]` to an empty store. -/
def exDb : MessageDatabase := ⟨some [exLine]⟩

end ChatApp

namespace MapTool

/-- Outcome of one call to the external `geolocator.geocode` service:
a located place, a miss (`None`), or a raised exception. -/
inductive GeoResult where
  | found : ℚ → ℚ → GeoResult
  | notFound : GeoResult
  | raises : GeoResult

/-- `get_location_coordinates` (the inner function of
`create_location_map` in `create_map_func.py`, identical in `app.py`):
a hit returns the coordinate pair, a miss returns `None`, and any
exception is swallowed into `None`. -/
def get_location_coordinates (geolocator : String → GeoResult)
    (location_name : String) : Option (ℚ × ℚ) :=
  match geolocator location_name with
  | .found lat lon => some (lat, lon)
  | .notFound => none
  | .raises => none

/-- Observable outcome of `create_location_map`: the coordinates the map is
centred on and whether `st.error` was shown. -/
structure MapOutcome where
  latitude : ℚ
  longitude : ℚ
  errorShown : Bool
deriving DecidableEq, Repr

/-- `create_location_map(location_name, default_lat, default_lon)` from
`create_map_func.py`: resolve the name, fall back to the default
coordinates with a user-visible error when resolution yields nothing.
(A returned coordinate pair is a two-tuple, hence always truthy.) -/
def create_location_map (geolocator : String → GeoResult)
    (location_name : String := "Kaohsiung")
    (default_lat : ℚ := 39.949610) (default_lon : ℚ := -75.150282) :
    MapOutcome :=
  match get_location_coordinates geolocator location_name with
  | some (lat, lon) => ⟨lat, lon, false⟩
  | none => ⟨default_lat, default_lon, true⟩

/-- Process-lifetime state of the `@st.cache_data`-decorated
`get_location_coordinates`: the behaviour of the external geocoder at each
successive real invocation, how many real invocations happened, and the
memo table (insertion-ordered, never evicted). -/
structure GeoCache where
  responses : Nat → GeoResult
  calls : Nat
  entries : List (String × Option (ℚ × ℚ))

/-- Lookup in the memo table (first match; the table never holds a key
twice). -/
def cacheLookup : List (String × Option (ℚ × ℚ)) → String →
    Option (Option (ℚ × ℚ))
  | [], _ => none
  | (k₁, v) :: rest, k => if k₁ = k then some v else cacheLookup rest k

/-- The cached `get_location_coordinates`: a memoized argument returns the
stored result without consulting the geocoder; otherwise the geocoder is
invoked once and the result is recorded. -/
def get_location_coordinates_cached (w : GeoCache) (location_name : String) :
    Option (ℚ × ℚ) × GeoCache :=
  match cacheLookup w.entries location_name with
  | some v => (v, w)
  | none =>
    let v := get_location_coordinates (fun _ => w.responses w.calls) location_name
    (v, { w with calls := w.calls + 1,
                 entries := w.entries ++ [(location_name, v)] })

end MapTool

namespace ChatApp

theorem loadLines_append (now : PyDateTime) (a b : List FileLine) :
    loadLines now (a ++ b) =
      ⟨(loadLines now a).messages ++ (loadLines now b).messages,
       (loadLines now a).lineErrors + (loadLines now b).lineErrors,
       (loadLines now a).messageErrors + (loadLines now b).messageErrors⟩ := by
  induction a with
  | nil => simp [loadLines]
  | cons l ls ih => simp [loadLines, ih, List.append_assoc, Nat.add_assoc]

theorem parse_messages_append (now : PyDateTime) (xs ys : List PyObj) :
    parse_messages now (xs ++ ys) =
      ((parse_messages now xs).1 ++ (parse_messages now ys).1,
       (parse_messages now xs).2 + (parse_messages now ys).2) := by
  induction xs with
  | nil => simp [parse_messages]
  | cons x xs ih =>
    simp only [List.cons_append, parse_messages]
    cases parseOneMessage now x <;> simp [Prod.ext_iff, ih] <;> omega

theorem dictGet_cons (a : String) (b : PyObj) (rest : List (String × PyObj))
    (k : String) :
    dictGet ((a, b) :: rest) k =
      match dictGet rest k with
      | some w => some w
      | none => if a = k then some b else none := rfl

theorem dictGet_map_overwrite (d : List (String × PyObj)) (k k' : String)
    (v : PyObj) (h : k ≠ k') :
    dictGet (d.map fun kv => if kv.1 = k then (k, v) else kv) k' = dictGet d k' := by
  induction d with
  | nil => rfl
  | cons kv rest ih =>
    obtain ⟨k₁, v₁⟩ := kv
    rw [List.map_cons]
    by_cases hk : k₁ = k
    · rw [show (if (k₁, v₁).1 = k then (k, v) else (k₁, v₁)) = (k, v) from if_pos hk]
      rw [dictGet_cons, dictGet_cons, ih]
      cases dictGet rest k' <;> simp [h, hk]
    · rw [show (if (k₁, v₁).1 = k then (k, v) else (k₁, v₁)) = (k₁, v₁) from if_neg hk]
      rw [dictGet_cons, dictGet_cons, ih]

theorem dictGet_append_single_ne (d : List (String × PyObj)) (k k' : String)
    (v : PyObj) (h : k ≠ k') :
    dictGet (d ++ [(k, v)]) k' = dictGet d k' := by
  induction d with
  | nil => simp [dictGet, h]
  | cons kv rest ih =>
    simp only [List.cons_append, dictGet, List.append_eq] at *
    rw [ih]

theorem dictGet_dictSet_ne (d : List (String × PyObj)) (k k' : String)
    (v : PyObj) (h : k ≠ k') :
    dictGet (dictSet d k v) k' = dictGet d k' := by
  unfold dictSet
  split
  · exact dictGet_map_overwrite d k k' v h
  · exact dictGet_append_single_ne d k k' v h

end ChatApp

namespace ChatApp

theorem wellFormed_unpack (m : Msg) (h : wellFormedMsg m = true) :
    ∃ r t, m.role = .pyStr r ∧ r ∈ role_to_class ∧
      m.timestamp = .pyDatetime t ∧ isoValid t.iso = true ∧
      serializable m.content = true := by
  unfold wellFormedMsg at h
  simp only [Bool.and_eq_true] at h
  obtain ⟨⟨h1, h2⟩, h3⟩ := h
  cases hr : m.role <;> rw [hr] at h1 <;> simp at h1
  cases ht : m.timestamp <;> rw [ht] at h2 <;> simp at h2
  exact ⟨_, _, rfl, h1, rfl, h2, h3⟩

theorem parseOneMessage_serialized (now : PyDateTime) (c ρ : PyObj) (r : String)
    (t : PyDateTime) (hρ : ρ = .pyStr r) (hr : r ∈ role_to_class)
    (ht : isoValid t.iso = true) :
    parseOneMessage now
      (.pyDict [("content", c), ("role", ρ), ("timestamp", .pyStr t.isoformat)]) =
      some ⟨ρ, c, .pyDatetime t⟩ := by
  subst hρ
  have h1 : datetime_fromisoformat t.isoformat = some t := by
    simp [datetime_fromisoformat, PyDateTime.isoformat, ht]
  simp [parseOneMessage, dictGet, dictSet, h1, create_message_by_role,
        constructMessage, hr, msgFieldNames]

end ChatApp

namespace ChatApp

theorem mapM_serialize_wf (now : PyDateTime) (msgs : List Msg)
    (h : ∀ m ∈ msgs, wellFormedMsg m = true) :
    ∃ ds, msgs.mapM serialize_message = some ds ∧
      serializableList ds = true ∧
      parse_messages now ds = (msgs, 0) := by
  induction msgs with
  | nil => exact ⟨[], rfl, rfl, rfl⟩
  | cons m ms ih =>
    obtain ⟨ds, hds, hser, hparse⟩ := ih fun x hx => h x (List.mem_cons_of_mem _ hx)
    obtain ⟨r, t, hrole, hr, hts, ht, hc⟩ := wellFormed_unpack m (h m (List.mem_cons_self _ _))
    have hm : serialize_message m =
        some (.pyDict [("content", m.content), ("role", m.role),
                       ("timestamp", .pyStr t.isoformat)]) := by
      unfold serialize_message
      rw [hts]
    refine ⟨.pyDict [("content", m.content), ("role", m.role),
                     ("timestamp", .pyStr t.isoformat)] :: ds, ?_, ?_, ?_⟩
    · rw [List.mapM_cons, hm, hds]; rfl
    · simp [serializableList, serializable, serializableDict, hc, hser, hrole]
    · have hp := parseOneMessage_serialized now m.content m.role r t hrole hr ht
      have hmeq : ({ role := m.role, content := m.content,
                     timestamp := PyObj.pyDatetime t } : Msg) = m := by rw [← hts]
      simp [parse_messages, hp, hparse, hmeq]

theorem add_messages_wf (now : PyDateTime) (db : MessageDatabase) (msgs : List Msg)
    (h : ∀ m ∈ msgs, wellFormedMsg m = true) :
    ∃ l, db.add_messages msgs = some ⟨some (db.file.getD [] ++ [l])⟩ ∧
      processLine now l = ⟨msgs, 0, 0⟩ := by
  obtain ⟨ds, hds, hser, hparse⟩ := mapM_serialize_wf now msgs h
  refine ⟨.json (.pyList ds), ?_, ?_⟩
  · unfold MessageDatabase.add_messages
    rw [hds]
    simp [serializable, hser]
  · simp [processLine, hparse]

theorem add_all_wf (now : PyDateTime) (turns : List (List Msg)) (lines : List FileLine)
    (h : ∀ turn ∈ turns, ∀ m ∈ turn, wellFormedMsg m = true) :
    ∃ nl, add_all ⟨some lines⟩ turns = some ⟨some (lines ++ nl)⟩ ∧
      loadLines now nl = ⟨turns.flatten, 0, 0⟩ := by
  induction turns generalizing lines with
  | nil => exact ⟨[], by simp [add_all], by simp [loadLines]⟩
  | cons t ts ih =>
    obtain ⟨l, hadd, hproc⟩ := add_messages_wf now ⟨some lines⟩ t (h t (List.mem_cons_self _ _))
    obtain ⟨nl, hrest, hload⟩ := ih (lines ++ [l]) fun turn hm => h turn (List.mem_cons_of_mem _ hm)
    refine ⟨l :: nl, ?_, ?_⟩
    · unfold add_all at *
      rw [List.foldlM_cons]
      simp only [Option.getD] at hadd
      rw [hadd]
      simpa [List.append_assoc] using hrest
    · simp [loadLines, hproc, hload]

end ChatApp

namespace MapTool

theorem cacheLookup_append_self (entries : List (String × Option (ℚ × ℚ)))
    (k : String) (v : Option (ℚ × ℚ)) (h : cacheLookup entries k = none) :
    cacheLookup (entries ++ [(k, v)]) k = some v := by
  induction entries with
  | nil => simp [cacheLookup]
  | cons kv rest ih =>
    obtain ⟨k₁, v₁⟩ := kv
    by_cases hk : k₁ = k
    · rw [show cacheLookup ((k₁, v₁) :: rest) k = some v₁ from if_pos hk] at h
      exact absurd h (by simp)
    · rw [List.cons_append]
      rw [show cacheLookup ((k₁, v₁) :: rest) k = cacheLookup rest k from if_neg hk] at h
      rw [show cacheLookup ((k₁, v₁) :: (rest ++ [(k, v)])) k =
            cacheLookup (rest ++ [(k, v)]) k from if_neg hk]
      exact ih h

end MapTool

namespace ChatApp

theorem serialize_message_shape (m : Msg) (el : PyObj)
    (h : serialize_message m = some el) :
    ∃ fs, el = .pyDict fs ∧
      (∃ c, dictGet fs "content" = some c) ∧
      (∃ ρ, dictGet fs "role" = some ρ) ∧
      ∃ t, dictGet fs "timestamp" = some (.pyStr (PyDateTime.isoformat t)) := by
  unfold serialize_message at h
  cases hts : m.timestamp <;> rw [hts] at h <;> simp only [Option.some.injEq] at h <;>
    try exact absurd h (fun hh => Option.noConfusion hh)
  case pyDatetime t =>
  refine ⟨_, h.symm, ⟨m.content, ?_⟩, ⟨m.role, ?_⟩, ⟨t, ?_⟩⟩ <;>
    simp [dictGet, PyDateTime.isoformat]

theorem mapM_serialize_shape (msgs : List Msg) (ds : List PyObj)
    (h : msgs.mapM serialize_message = some ds) :
    ds.length = msgs.length ∧ ∀ el ∈ ds, ∃ fs, el = .pyDict fs ∧
      (∃ c, dictGet fs "content" = some c) ∧
      (∃ ρ, dictGet fs "role" = some ρ) ∧
      ∃ t, dictGet fs "timestamp" = some (.pyStr (PyDateTime.isoformat t)) := by
  induction msgs generalizing ds with
  | nil =>
    rw [List.mapM_nil] at h
    simp only [pure, Option.some.injEq] at h
    subst h
    simp
  | cons m ms ih =>
    rw [List.mapM_cons] at h
    cases hm : serialize_message m <;>
      rw [hm] at h <;>
      simp only [Option.bind_eq_bind, Option.some_bind, Option.none_bind] at h
    · exact Option.noConfusion h
    · cases hds : ms.mapM serialize_message <;>
        rw [hds] at h <;>
        simp only [Option.some_bind, Option.none_bind, pure, Option.some.injEq] at h
      · exact Option.noConfusion h
      · obtain ⟨hlen, hall⟩ := ih _ hds
        subst h
        refine ⟨by simp [hlen], ?_⟩
        intro el hel
        rcases List.mem_cons.1 hel with rfl | hel'
        · exact serialize_message_shape _ el hm
        · exact hall el hel'

end ChatApp

namespace ChatApp

/-- C1: appending any sequence of well-formed turns through `add_messages`
and reloading through `get_messages` yields exactly the appended messages,
in order, with matching (role, content) pairs. -/
theorem roundtrip_appended_turns (now : PyDateTime) (turns : List (List Msg))
    (h : ∀ turn ∈ turns, ∀ m ∈ turn, wellFormedMsg m = true) :
    ∃ db', add_all ⟨some []⟩ turns = some db' ∧
      (db'.get_messages now).messages = turns.flatten ∧
      (db'.get_messages now).messages.map (fun m => (m.role, m.content)) =
        turns.flatten.map fun m => (m.role, m.content) := by
  obtain ⟨nl, hadd, hload⟩ := add_all_wf now turns [] h
  have hm : (MessageDatabase.get_messages ⟨some ([] ++ nl)⟩ now).messages =
      turns.flatten := by
    simp only [MessageDatabase.get_messages, List.nil_append, hload]
  exact ⟨⟨some ([] ++ nl)⟩, hadd, hm, by rw [hm]⟩

/-- C1 witness: the spec's example scenario, one user turn and one
model-text-response turn appended as a single array. -/
theorem roundtrip_appended_turns_witness :
    ∃ db', add_all ⟨some []⟩ [[exUser, exModel]] = some db' ∧
      (db'.get_messages exNow).messages = [[exUser, exModel]].flatten ∧
      (db'.get_messages exNow).messages.map (fun m => (m.role, m.content)) =
        [[exUser, exModel]].flatten.map fun m => (m.role, m.content) :=
  roundtrip_appended_turns exNow [[exUser, exModel]] (by decide)

/-- C2: a line that fails JSON parsing and an element that fails message
construction are skipped while iteration continues; the invalid-then-valid
two-line file yields exactly the one good message. -/
theorem load_skips_malformed (now : PyDateTime) (pre post : List FileLine)
    (elems₁ elems₂ : List PyObj) (x : PyObj)
    (hx : parseOneMessage now x = none) :
    (loadLines now (pre ++ FileLine.invalid :: post)).messages =
      (loadLines now pre).messages ++ (loadLines now post).messages ∧
    (parse_messages now (elems₁ ++ x :: elems₂)).1 =
      (parse_messages now elems₁).1 ++ (parse_messages now elems₂).1 ∧
    (loadLines now [FileLine.invalid,
        FileLine.json (.pyList [.pyDict [("role", .pyStr "user"),
                                         ("content", .pyStr "Hi")]])]).messages =
      [⟨.pyStr "user", .pyStr "Hi", .pyDatetime now⟩] := by
  refine ⟨?_, ?_, rfl⟩
  · rw [loadLines_append now pre (FileLine.invalid :: post)]
    simp [loadLines, processLine]
  · rw [parse_messages_append now elems₁ (x :: elems₂)]
    simp [parse_messages, hx]

/-- C2 witness: a file whose first line is invalid JSON and whose second
line is a valid one-message array reloads to exactly that message. -/
theorem load_skips_malformed_witness :
    (loadLines exNow [FileLine.invalid,
        FileLine.json (.pyList [.pyDict [("role", .pyStr "user"),
                                         ("content", .pyStr "Hi")]])]).messages =
      [⟨.pyStr "user", .pyStr "Hi", .pyDatetime exNow⟩] :=
  (load_skips_malformed exNow [] [] [] [] (.pyInt 3) rfl).2.2

/-- C3: a persisted message whose role is not one of the six mapped keys is
absent from the load while all other messages are still yielded, and
loading never raises. -/
theorem unknown_role_skipped (now : PyDateTime) (d : List (String × PyObj))
    (h : dictRoleKnown d = false) (xs ys : List PyObj) :
    parseOneMessage now (.pyDict d) = none ∧
    (parse_messages now (xs ++ .pyDict d :: ys)).1 =
      (parse_messages now xs).1 ++ (parse_messages now ys).1 := by
  have hcr : ∀ d', dictGet d' "role" = dictGet d "role" →
      create_message_by_role now d' = none := by
    intro d' hd'
    unfold dictRoleKnown at h
    simp only [create_message_by_role]
    rw [hd']
    cases hg : dictGet d "role" <;> rw [hg] at h
    rename_i v
    cases v
    case pyStr r =>
      have h' : role_to_class.contains r = false := h
      exact if_neg fun hh => by rw [h'] at hh; exact Bool.noConfusion hh
    all_goals rfl
  have hnone : parseOneMessage now (.pyDict d) = none := by
    simp only [parseOneMessage]
    cases hts : dictGet d "timestamp"
    · exact hcr d rfl
    case some v =>
      cases v
      case pyStr s =>
        show (match datetime_fromisoformat s with
          | some t => create_message_by_role now (dictSet d "timestamp"
              (PyObj.pyDatetime t))
          | none => none) = none
        cases hfi : datetime_fromisoformat s
        · rfl
        case some t =>
          exact hcr _ (dictGet_dictSet_ne d "timestamp" "role" (.pyDatetime t)
            (by decide))
      all_goals exact hcr d rfl
  refine ⟨hnone, ?_⟩
  rw [parse_messages_append now xs (.pyDict d :: ys)]
  simp [parse_messages, hnone]

/-- C3 witness: a message persisted with the unmapped role "assistant" is
skipped on load. -/
theorem unknown_role_skipped_witness :
    parseOneMessage exNow
      (.pyDict [("role", .pyStr "assistant"), ("content", .pyStr "Hi")]) = none :=
  (unknown_role_skipped exNow
    [("role", .pyStr "assistant"), ("content", .pyStr "Hi")] (by decide) [] []).1

end ChatApp

namespace ChatApp

/-- C4: a successful `add_messages` appends exactly one line holding a
single JSON array; every element is an object with `content` and `role`
fields and a `timestamp` field that is the ISO-8601 rendering of a
datetime. -/
theorem add_messages_writes_one_json_array_line (db : MessageDatabase)
    (msgs : List Msg) (db' : MessageDatabase)
    (h : db.add_messages msgs = some db') :
    ∃ ds, db'.file = some (db.file.getD [] ++ [FileLine.json (.pyList ds)]) ∧
      ds.length = msgs.length ∧
      ∀ el ∈ ds, ∃ fs, el = .pyDict fs ∧
        (∃ c, dictGet fs "content" = some c) ∧
        (∃ ρ, dictGet fs "role" = some ρ) ∧
        ∃ t, dictGet fs "timestamp" = some (.pyStr (PyDateTime.isoformat t)) := by
  unfold MessageDatabase.add_messages at h
  cases hds : msgs.mapM serialize_message <;> rw [hds] at h <;>
    simp only [Option.some_bind, Option.none_bind] at h
  · exact Option.noConfusion h
  · rename_i ds
    split at h
    · simp only [Option.some.injEq] at h
      subst h
      obtain ⟨hlen, hall⟩ := mapM_serialize_shape msgs ds hds
      exact ⟨ds, rfl, hlen, hall⟩
    · exact Option.noConfusion h

/-- C4 witness: appending the example user turn to an empty store. -/
theorem add_messages_writes_one_json_array_line_witness :
    ∃ ds, exDb.file =
        some ((MessageDatabase.mk (some [])).file.getD [] ++
              [FileLine.json (.pyList ds)]) ∧
      ds.length = [exUser].length ∧
      ∀ el ∈ ds, ∃ fs, el = .pyDict fs ∧
        (∃ c, dictGet fs "content" = some c) ∧
        (∃ ρ, dictGet fs "role" = some ρ) ∧
        ∃ t, dictGet fs "timestamp" = some (.pyStr (PyDateTime.isoformat t)) :=
  add_messages_writes_one_json_array_line ⟨some []⟩ [exUser] exDb rfl

/-- C5: every successful `add_messages` call only appends one new
self-contained line to the existing content, and load order equals write
order, across lines and across the elements within a line. -/
theorem append_only_and_order (now : PyDateTime) (db : MessageDatabase)
    (msgs : List Msg) (db' : MessageDatabase)
    (h : db.add_messages msgs = some db')
    (a b : List FileLine) (xs ys : List PyObj) :
    (∃ l, db'.file = some (db.file.getD [] ++ [l])) ∧
    (loadLines now (a ++ b)).messages =
      (loadLines now a).messages ++ (loadLines now b).messages ∧
    (parse_messages now (xs ++ ys)).1 =
      (parse_messages now xs).1 ++ (parse_messages now ys).1 := by
  refine ⟨?_, ?_, ?_⟩
  · unfold MessageDatabase.add_messages at h
    cases hds : msgs.mapM serialize_message <;> rw [hds] at h <;>
      simp only [Option.some_bind, Option.none_bind] at h
    · exact Option.noConfusion h
    · rename_i ds
      split at h
      · simp only [Option.some.injEq] at h
        subst h
        exact ⟨_, rfl⟩
      · exact Option.noConfusion h
  · rw [loadLines_append]
  · rw [parse_messages_append]

/-- C5 witness: one example append to an empty store. -/
theorem append_only_and_order_witness :
    (∃ l, exDb.file =
        some ((MessageDatabase.mk (some [])).file.getD [] ++ [l])) ∧
    (loadLines exNow ([exLine] ++ [exLine])).messages =
      (loadLines exNow [exLine]).messages ++
        (loadLines exNow [exLine]).messages ∧
    (parse_messages exNow ([] ++ [])).1 =
      (parse_messages exNow []).1 ++ (parse_messages exNow []).1 :=
  append_only_and_order exNow ⟨some []⟩ [exUser] exDb rfl [exLine] [exLine] [] []

/-- C8: when the backing file does not exist, `get_messages` yields the
empty sequence without raising, and a fresh session hydrates to an empty
message list. -/
theorem missing_file_loads_empty (now : PyDateTime) :
    (MessageDatabase.mk none).get_messages now = ⟨[], 0, 0⟩ ∧
    initialize_session ⟨none⟩ now = [] :=
  ⟨rfl, rfl⟩

/-- C9: a blank or whitespace-only line, and a line holding valid JSON that
is not an array, contribute no messages and print no parse-error log. -/
theorem blank_and_nonarray_lines_ignored (now : PyDateTime) (v : PyObj)
    (h : ∀ elems, v ≠ .pyList elems) :
    processLine now .blank = ⟨[], 0, 0⟩ ∧
    processLine now (.json v) = ⟨[], 0, 0⟩ := by
  refine ⟨rfl, ?_⟩
  cases v <;> first | rfl | exact absurd rfl (h _)

/-- C9 witness: a bare JSON object line is silently ignored. -/
theorem blank_and_nonarray_lines_ignored_witness :
    processLine exNow .blank = ⟨[], 0, 0⟩ ∧
    processLine exNow (.json (.pyDict [])) = ⟨[], 0, 0⟩ :=
  blank_and_nonarray_lines_ignored exNow (.pyDict [])
    fun _ hh => PyObj.noConfusion hh

/-- C10: after a non-empty user prompt, the user message always joins the
in-memory session, but the (user, model) pair is persisted — and the model
message appended — only when the streamed response text is non-empty; an
empty response leaves the database untouched. -/
theorem persist_only_on_nonempty_response (db : MessageDatabase)
    (session : List Msg) (prompt full_response : String)
    (now now2 : PyDateTime) (hp : prompt ≠ "") :
    (full_response = "" →
      handle_user_input db session (some prompt) full_response now now2 =
        (session ++ [UserPrompt prompt now], some db)) ∧
    (full_response ≠ "" →
      handle_user_input db session (some prompt) full_response now now2 =
        (session ++ [UserPrompt prompt now,
                     ModelTextResponse full_response now2],
         db.add_messages [UserPrompt prompt now,
                          ModelTextResponse full_response now2])) := by
  have hpe : prompt.isEmpty = false := by
    cases he : prompt.isEmpty
    · rfl
    · exact absurd ((String.isEmpty_iff prompt).1 he) hp
  constructor
  · intro hfr
    subst hfr
    simp [handle_user_input, hpe]
    decide
  · intro hfr
    have hfe : full_response.isEmpty = false := by
      cases he : full_response.isEmpty
      · rfl
      · exact absurd ((String.isEmpty_iff full_response).1 he) hfr
    simp [handle_user_input, hpe, hfe]

/-- C10 witness: a non-empty prompt with a non-empty streamed response is
appended to the session and persisted. -/
theorem persist_only_on_nonempty_response_witness :
    handle_user_input ⟨some []⟩ [] (some "Hi") "Hello!" exNow exNow =
      ([UserPrompt "Hi" exNow, ModelTextResponse "Hello!" exNow],
       MessageDatabase.add_messages ⟨some []⟩
         [UserPrompt "Hi" exNow, ModelTextResponse "Hello!" exNow]) :=
  (persist_only_on_nonempty_response ⟨some []⟩ [] "Hi" "Hello!" exNow exNow
    (by decide)).2 (by decide)

end ChatApp

namespace MapTool

/-- C6: when the geocoding lookup raises or returns no match,
`create_location_map` does not raise: it falls back to the documented
default coordinates (39.949610, -75.150282) and shows the user-visible
error notice. -/
theorem resolve_falls_back_on_failure (geolocator : String → GeoResult)
    (location_name : String)
    (h : geolocator location_name = .notFound ∨
         geolocator location_name = .raises) :
    create_location_map geolocator location_name =
      ⟨39.949610, -75.150282, true⟩ := by
  unfold create_location_map get_location_coordinates
  rcases h with h | h <;> rw [h]

/-- C6 witness: resolving a nonexistent place name yields the fallback
coordinates, not an error. -/
theorem resolve_falls_back_on_failure_witness :
    create_location_map (fun _ => .notFound) "nonexistent-place-xyz" =
      ⟨39.949610, -75.150282, true⟩ :=
  resolve_falls_back_on_failure (fun _ => .notFound) "nonexistent-place-xyz"
    (Or.inl rfl)

/-- C7: the cached resolver is idempotent per place name — a second call
with the same name returns the identical result — and the result stays
memoized in the never-evicted table. -/
theorem resolve_memoized_idempotent (w : GeoCache) (location_name : String) :
    (get_location_coordinates_cached
        ((get_location_coordinates_cached w location_name).2)
        location_name).1 =
      (get_location_coordinates_cached w location_name).1 ∧
    cacheLookup ((get_location_coordinates_cached w location_name).2).entries
        location_name =
      some (get_location_coordinates_cached w location_name).1 := by
  cases hl : cacheLookup w.entries location_name
  case none =>
    have hadd := cacheLookup_append_self w.entries location_name
      (get_location_coordinates (fun _ => w.responses w.calls) location_name) hl
    simp [get_location_coordinates_cached, hl, hadd]
  case some v =>
    simp [get_location_coordinates_cached, hl]

end MapTool
